import Mathlib

/-!
Verification of the replay acquisition pipeline of `scripts/replay_downloader.js`.

The JavaScript source is shallowly embedded below: the SQL of `getPendingMatch`
(the Job Store's claim operation, called `claimNext` in the design document)
becomes a pure function on a list of rows, the retrying download loop becomes a
structurally recursive function driven by a script of per-attempt outcomes, the
coordinator request becomes a function of the possible asynchronous scenarios,
and the URL resolver becomes a function on a tagged value type mirroring the
loosely-typed coordinator response.
-/

namespace ReplayDownloader

/-! ## Job store rows (`public.matches_to_download`) -/

/-- The `status` column: `pending, processing, downloaded, error, processed,
parsed, notified`. -/
inductive Status where
  | pending
  | processing
  | downloaded
  | error
  | processed
  | parsed
  | notified
deriving DecidableEq

/-- A row of `public.matches_to_download`, restricted to the columns the
downloader script reads or writes. -/
structure Row where
  id : Nat
  user_id : Nat
  share_code : String
  status : Status
  file_path : Option String
deriving DecidableEq

/-- The row projection returned by `getPendingMatch` (the SQL selects
`id, share_code, user_id` from the winning row; `status` is not returned). -/
structure Claimed where
  id : Nat
  user_id : Nat
  share_code : String
deriving DecidableEq

/-- `select max(id) from public.matches_to_download m2 where m2.user_id = u`.
Note the subquery in the source ranges over ALL of the user's rows, with no
status filter. -/
def userMaxId : List Row → Nat → Nat
  | [], _ => 0
  | r :: rest, u =>
    if r.user_id = u then max r.id (userMaxId rest u) else userMaxId rest u

/-- The `where` clause of the claim CTE: `status = 'pending' and
id = (select max(id) ... where m2.user_id = m.user_id)`. -/
def eligible (s : List Row) (r : Row) : Bool :=
  decide (r.status = Status.pending) && decide (r.id = userMaxId s r.user_id)

/-- `order by id desc limit 1`: the row of greatest id, `none` on an empty
result set. -/
def pickMax : List Row → Option Row
  | [] => none
  | r :: rest =>
    match pickMax rest with
    | none => some r
    | some b => some (if b.id < r.id then r else b)

/-- Single-row update of the row with the given id, by an arbitrary
field-updating function. -/
def updateRow (s : List Row) (i : Nat) (f : Row → Row) : List Row :=
  s.map (fun r => if r.id = i then f r else r)

/-- `update public.matches_to_download set status = $st where id = $i`. -/
def setStatus (s : List Row) (i : Nat) (st : Status) : List Row :=
  updateRow s i (fun r => { r with status := st })

/-- `markPending` from the source. -/
def markPending (s : List Row) (i : Nat) : List Row :=
  setStatus s i Status.pending

/-- `markError` from the source. -/
def markError (s : List Row) (i : Nat) : List Row :=
  setStatus s i Status.error

/-- `markDownloaded` from the source: sets `status = 'downloaded'` and
`file_path`. -/
def markDownloaded (s : List Row) (i : Nat) (p : String) : List Row :=
  updateRow s i (fun r => { r with status := Status.downloaded, file_path := some p })

/-- `getPendingMatch` (the Job Store's `claimNext`): inside one transaction,
select the pending rows that carry their user's maximum id, order by id
descending, take one, set it to `processing`, and return its columns.  The
`for update skip locked` clause only matters across concurrent processes and
has no effect in this single-process semantics. -/
def getPendingMatch (s : List Row) : Option Claimed × List Row :=
  match pickMax (s.filter (fun r => eligible s r)) with
  | none => (none, s)
  | some w => (some ⟨w.id, w.user_id, w.share_code⟩, setStatus s w.id Status.processing)

/-- Status of the row with a given id (first match). -/
def statusOf : List Row → Nat → Option Status
  | [], _ => none
  | r :: rest, i => if r.id = i then some r.status else statusOf rest i

/-- External job submission (outside this core): a new row is appended with
status `pending`. -/
def insertJob (s : List Row) (i : Nat) (u : Nat) (code : String) : List Row :=
  s ++ [⟨i, u, code, Status.pending, none⟩]

/-- Modelled from the spec: "the highest-id `pending` job per user" — the
maximum id among the user's rows of status `pending` (unlike the source's
subquery, which ranges over all of the user's rows).  Used only to state what
the specification asserts, for comparison with `getPendingMatch`. -/
def userMaxPendingId : List Row → Nat → Nat
  | [], _ => 0
  | r :: rest, u =>
    if r.user_id = u ∧ r.status = Status.pending then
      max r.id (userMaxPendingId rest u)
    else userMaxPendingId rest u

/-- Number of `processing` rows a user owns. -/
def countProcessing (s : List Row) (u : Nat) : Nat :=
  (s.filter (fun r => decide (r.user_id = u) && decide (r.status = Status.processing))).length

/-- All row ids are distinct (the data model: ids are unique and
monotonically increasing). -/
def idsNodup (s : List Row) : Prop := (s.map Row.id).Nodup

/-- Every `processing` row carries its user's maximum id.  This is the
strengthening under which the claim operation preserves "at most one
`processing` row per user"; external inserts break it. -/
def procMaxInv (s : List Row) : Prop :=
  ∀ r ∈ s, r.status = Status.processing → r.id = userMaxId s r.user_id

/-- At most one `processing` row per user. -/
def atMostOneProc (s : List Row) : Prop :=
  ∀ r ∈ s, ∀ r2 ∈ s, r.status = Status.processing → r2.status = Status.processing →
    r.user_id = r2.user_id → r = r2

instance (s : List Row) : Decidable (idsNodup s) := by
  unfold idsNodup; infer_instance

instance (s : List Row) : Decidable (procMaxInv s) := by
  unfold procMaxInv; infer_instance

instance (s : List Row) : Decidable (atMostOneProc s) := by
  unfold atMostOneProc; infer_instance

/-! ## Strings: substring containment (`String.prototype.includes`) -/

/-- `leadsWith needle hay`: the needle is an initial segment of the haystack. -/
def leadsWith : List Char → List Char → Bool
  | [], _ => true
  | _ :: _, [] => false
  | n :: ns, h :: hs => if n = h then leadsWith ns hs else false

/-- `charsContains hay needle`: the needle occurs contiguously in the
haystack. -/
def charsContains : List Char → List Char → Bool
  | [], needle => needle.isEmpty
  | h :: t, needle => leadsWith needle (h :: t) || charsContains t needle

/-- JavaScript's `hay.includes(needle)`. -/
def strContains (hay needle : String) : Bool :=
  charsContains hay.toList needle.toList

/-! ## Errors and the retry predicate -/

/-- A thrown JavaScript error, restricted to the fields the source
inspects: `name`, `message` and `cause.code`. -/
structure JsError where
  name : String
  message : String
  causeCode : Option String
deriving DecidableEq

/-- `isRetryableFetchError` from the source: `AbortError`, undici socket
reset, or a message containing one of the two known transient signatures.
(The source's `!error` and non-string-message guards are vacuous here since a
`JsError` always carries a string message.) -/
def isRetryableFetchError (e : JsError) : Bool :=
  decide (e.name = "AbortError") ||
  decide (e.causeCode = some "UND_ERR_SOCKET") ||
  strContains e.message "terminated" ||
  strContains e.message "other side closed"

/-! ## Download & decode pipeline (`downloadReplay`) -/

/-- What one HTTP attempt does, as observed by the downloader: either `fetch`
rejects with an error, or a response arrives with a status, a body flag
(the truthiness of `response.body`), and — when the streaming pipeline runs —
an optional pipeline error. -/
inductive FetchAttempt where
  | throws (e : JsError)
  | resp (status : Nat) (hasBody : Bool) (pipeErr : Option JsError)
deriving DecidableEq

/-- `response.ok`: the status is in the 2xx range. -/
def respOk (status : Nat) : Bool :=
  decide (200 ≤ status) && decide (status < 300)

/-- Membership in `new Set([502, 503, 504])`. -/
def retryableStatus (status : Nat) : Bool :=
  decide (status = 502) || decide (status = 503) || decide (status = 504)

/-- The observable trace of one `downloadReplay` call: its result (success or
the thrown error), the backoff sleeps performed in order (milliseconds), and
whether the streaming pipeline ever wrote to the destination file. -/
structure DownloadTrace where
  result : Except JsError Unit
  sleeps : List Nat
  wroteFile : Bool

/-- The body of `downloadReplay`'s `for` loop, one call per attempt.
`attempt` is the 1-based attempt number; `fuel` is the number of attempts the
budget still allows including this one, so `fuel ≠ 1` inside the call is the
source's `attempt < maxAttempts`.  The `fuel = 0` case is unreachable from
`downloadReplay`. -/
def downloadGo (script : Nat → FetchAttempt) : Nat → Nat → DownloadTrace
  | _, 0 =>
    { result := Except.error ⟨"Error", "attempt budget exhausted", none⟩,
      sleeps := [], wroteFile := false }
  | attempt, fuel + 1 =>
    match script attempt with
    | FetchAttempt.throws e =>
      if 0 < fuel ∧ isRetryableFetchError e then
        let t := downloadGo script (attempt + 1) fuel
        { result := t.result, sleeps := 3000 * attempt :: t.sleeps, wroteFile := t.wroteFile }
      else { result := Except.error e, sleeps := [], wroteFile := false }
    | FetchAttempt.resp status hasBody pipeErr =>
      if respOk status && hasBody then
        match pipeErr with
        | none => { result := Except.ok (), sleeps := [], wroteFile := true }
        | some e =>
          if 0 < fuel ∧ isRetryableFetchError e then
            let t := downloadGo script (attempt + 1) fuel
            { result := t.result, sleeps := 3000 * attempt :: t.sleeps, wroteFile := true }
          else { result := Except.error e, sleeps := [], wroteFile := true }
      else
        if retryableStatus status ∧ 0 < fuel then
          let t := downloadGo script (attempt + 1) fuel
          { result := t.result, sleeps := 3000 * attempt :: t.sleeps, wroteFile := t.wroteFile }
        else
          { result := Except.error ⟨"Error", "Replay download failed: " ++ toString status, none⟩,
            sleeps := [], wroteFile := false }

/-- `downloadReplay`: up to `maxAttempts = 6` attempts, starting at attempt 1. -/
def downloadReplay (script : Nat → FetchAttempt) : DownloadTrace :=
  downloadGo script 1 6

/-- Modelled from the spec's retry triggers: "abort/timeout of the request, a
small set of known transient network-reset error signatures, or an HTTP status
in 502, 503, 504" — stated over one attempt's outcome, to be compared with the
branching of `downloadGo`. -/
def claimRetryable : FetchAttempt → Bool
  | FetchAttempt.throws e => isRetryableFetchError e
  | FetchAttempt.resp status hasBody pipeErr =>
    if respOk status && hasBody then
      match pipeErr with
      | none => false
      | some e => isRetryableFetchError e
    else retryableStatus status

/-- The error one attempt fails with when taken in isolation (`none` means the
attempt succeeds). -/
def attemptOutcome : FetchAttempt → Option JsError
  | FetchAttempt.throws e => some e
  | FetchAttempt.resp status hasBody pipeErr =>
    if respOk status && hasBody then pipeErr
    else some ⟨"Error", "Replay download failed: " ++ toString status, none⟩

/-- Whether one attempt runs the streaming pipeline (and hence writes to the
destination file, possibly deleting it again on failure). -/
def attemptWrote : FetchAttempt → Bool
  | FetchAttempt.throws _ => false
  | FetchAttempt.resp status hasBody _ => respOk status && hasBody

/-! ## Match coordinator client (`requestMatch`) -/

/-- The asynchronous scenarios a single `requestMatch` call can face:
`requestGame` throws synchronously; a `matchList` event arrives after
`arrivalMs` milliseconds; or no event ever arrives. -/
inductive GcScenario where
  | sendThrows (e : JsError)
  | response (arrivalMs : Nat)
  | noResponse

/-- The timeout passed to `setTimeout` in `requestMatch`. -/
def requestMatchTimeoutMs : Nat := 20000

/-- The error `requestMatch` rejects with on timeout. -/
def timedOutError : JsError := ⟨"Error", "Timed out waiting for matchList", none⟩

/-- What a settled `requestMatch` call left behind: its result and whether the
`matchList` listener has been removed by the time the promise settles. -/
structure RequestOutcome where
  failed : Option JsError
  listenerDetached : Bool

/-- `requestMatch`: a `once` listener and a 20-second timer race.  If the
send throws, the listener is removed explicitly; if the event fires first, the
`once` registration removes it; if the timer fires first, the promise is
rejected but the listener is NOT removed (the timeout callback only calls
`reject`). -/
def requestMatch : GcScenario → RequestOutcome
  | GcScenario.sendThrows e => { failed := some e, listenerDetached := true }
  | GcScenario.response arrivalMs =>
    if arrivalMs < requestMatchTimeoutMs then
      { failed := none, listenerDetached := true }
    else
      { failed := some timedOutError, listenerDetached := false }
  | GcScenario.noResponse => { failed := some timedOutError, listenerDetached := false }

/-! ## The coordinator response and the replay URL resolver -/

/-- The loosely-typed coordinator response: a tagged JavaScript value
(string / number / object / array / null-or-undefined leaf). -/
inductive JValue where
  | str (s : String)
  | num (n : Int)
  | obj (fields : List (String × JValue))
  | arr (items : List JValue)
  | nullv

/-- JavaScript truthiness of a value (`undefined` is handled at the `Option`
level). -/
def jTruthy : JValue → Bool
  | JValue.str s => decide (s ≠ "")
  | JValue.num n => decide (n ≠ 0)
  | JValue.obj _ => true
  | JValue.arr _ => true
  | JValue.nullv => false

/-- First-match lookup of an object field. -/
def lookupField : List (String × JValue) → String → Option JValue
  | [], _ => none
  | (k, v) :: rest, key => if k = key then some v else lookupField rest key

/-- Property access `v.key` (`undefined` when `v` is not an object or the
field is absent). -/
def jget : JValue → String → Option JValue
  | JValue.obj fs, k => lookupField fs k
  | _, _ => none

/-- Index access `v[i]`: array element, or the `toString i` property of an
object. -/
def jat : JValue → Nat → Option JValue
  | JValue.arr xs, i => xs[i]?
  | JValue.obj fs, i => lookupField fs (toString i)
  | _, _ => none

/-- Optional chaining `o?.key`. -/
def ojget (o : Option JValue) (k : String) : Option JValue :=
  o.bind (fun v => jget v k)

/-- Optional chaining `o?.[i]`. -/
def ojat (o : Option JValue) (i : Nat) : Option JValue :=
  o.bind (fun v => jat v i)

/-- JavaScript `a || b` on possibly-undefined values: the left value when it
is present and truthy, otherwise the right. -/
def jor : Option JValue → Option JValue → Option JValue
  | some v, b => if jTruthy v then some v else b
  | none, b => b

/-- Truthiness of a possibly-undefined value (`!x` in the source). -/
def truthyO : Option JValue → Bool
  | none => false
  | some v => jTruthy v

/- JavaScript `String(v)` (template-literal interpolation), for the value
shapes that can reach it here. -/
mutual
def jToString : JValue → String
  | JValue.str s => s
  | JValue.num n => toString n
  | JValue.obj _ => "[object Object]"
  | JValue.arr xs => jToStringList xs
  | JValue.nullv => "null"
def jToStringList : List JValue → String
  | [] => ""
  | [v] => jToString v
  | v :: rest => jToString v ++ "," ++ jToStringList rest
end

/-- `String.prototype.padStart(len, c)`: left-pad up to `len`; a string
already at least `len` long is returned unchanged (never truncated). -/
def padStart (s : String) (len : Nat) (c : Char) : String :=
  String.mk (List.replicate (len - s.length) c ++ s.data)

/-- The padded reservation-id segment of the derived replay URL:
`String(reservationId).padStart(21, "0")`. -/
def paddedReservationSegment (v : JValue) : String :=
  padStart (jToString v) 21 '0'

/-- `matchList.round_stats_all || matchList?.[0]?.round_stats_all`, then the
last array element (the source's `roundStats[roundStats.length - 1]`,
`null`/`undefined` when `roundStats` is not an array or is empty). -/
def lastRoundOf (m : JValue) : Option JValue :=
  match jor (jget m "round_stats_all") (ojget (jat m 0) "round_stats_all") with
  | some (JValue.arr xs) => xs.getLast?
  | _ => none

/-- `buildReplayUrl`: derive
`http://replay{ip}.valve.net/730/{paddedReservation}_{tvPort}.dem.bz2` from
`watchablematchinfo` and the last round's `reservationid`; `null` when any of
the three pieces is absent or falsy. -/
def buildReplayUrl (m : JValue) : Option String :=
  let watchable := jor (jget m "watchablematchinfo") (ojget (jat m 0) "watchablematchinfo")
  let serverIp := ojget watchable "server_ip"
  let tvPort := ojget watchable "tv_port"
  let reservationId := ojget (lastRoundOf m) "reservationid"
  if truthyO serverIp && truthyO tvPort && truthyO reservationId then
    some ("http://replay" ++ jToString (serverIp.getD JValue.nullv) ++ ".valve.net/730/" ++
      paddedReservationSegment (reservationId.getD JValue.nullv) ++ "_" ++
      jToString (tvPort.getD JValue.nullv) ++ ".dem.bz2")
  else none

/- Structural size of a value, bounding the work of the breadth-first
search. -/
mutual
def jsize : JValue → Nat
  | JValue.str _ => 1
  | JValue.num _ => 1
  | JValue.nullv => 1
  | JValue.obj fs => 1 + jsizeFields fs
  | JValue.arr xs => 1 + jsizeList xs
def jsizeFields : List (String × JValue) → Nat
  | [] => 0
  | (_, v) :: rest => jsize v + jsizeFields rest
def jsizeList : List JValue → Nat
  | [] => 0
  | v :: rest => jsize v + jsizeList rest
end

/-- Total size of the nodes still queued. -/
def qsize : List (JValue × Nat) → Nat
  | [] => 0
  | (n, _) :: rest => jsize n + qsize rest

/-- The worklist loop of `findReplayUrlInObject`: pop the front of the queue;
skip falsy nodes and nodes deeper than `maxDepth = 6`; return a string leaf
containing `".dem.bz2"`; push an array's items or an object's values at
depth + 1.  `fuel` is a structural-recursion bound; `qsize` of the queue
strictly decreases at every step, so any `fuel ≥ qsize queue` computes the
loop exactly (see `bfsGo_fuel_irrelevant`). -/
def bfsGo : Nat → List (JValue × Nat) → Option String
  | 0, _ => none
  | _ + 1, [] => none
  | fuel + 1, (node, depth) :: rest =>
    if jTruthy node = false ∨ 6 < depth then bfsGo fuel rest
    else
      match node with
      | JValue.str s => if strContains s ".dem.bz2" then some s else bfsGo fuel rest
      | JValue.arr xs => bfsGo fuel (rest ++ xs.map (fun x => (x, depth + 1)))
      | JValue.obj fs => bfsGo fuel (rest ++ fs.map (fun p => (p.2, depth + 1)))
      | JValue.num _ => bfsGo fuel rest
      | JValue.nullv => bfsGo fuel rest

/-- `findReplayUrlInObject(value)` with the default `maxDepth = 6`. -/
def findReplayUrlInObject (m : JValue) : Option String :=
  bfsGo (qsize [(m, 0)]) [(m, 0)]

/-- The third alternative of the direct-field strategies:
`lastRound?.reservation?.replay_url || lastRound?.map || lastRound?.replay_url`. -/
def alternativeUrl (m : JValue) : Option JValue :=
  jor (ojget (ojget (lastRoundOf m) "reservation") "replay_url")
    (jor (ojget (lastRoundOf m) "map") (ojget (lastRoundOf m) "replay_url"))

/-- The six direct well-known field paths tried first by `findReplayUrl`, in
source order. -/
def directCandidates (m : JValue) : List (Option JValue) :=
  [ ojget (jget m "match") "replay_url",
    ojget (ojget (ojat (jget m "matches") 0) "match") "replay_url",
    ojget (ojat (jget m "matches") 0) "replay_url",
    jget m "replay_url",
    ojget (jat m 0) "replay_url",
    alternativeUrl m ]

/-- The full `candidates` array of `findReplayUrl`: the direct field paths,
then the derived URL, then the breadth-first search. -/
def candidateList (m : JValue) : List (Option JValue) :=
  directCandidates m ++
    [ (buildReplayUrl m).map JValue.str,
      (findReplayUrlInObject m).map JValue.str ]

/-- `candidates.find(v => typeof v === "string" && v.length)`. -/
def firstUrl : List (Option JValue) → Option String
  | [] => none
  | some (JValue.str s) :: rest => if s.length = 0 then firstUrl rest else some s
  | _ :: rest => firstUrl rest

/-- `findReplayUrl`: `null` unless the response is an object or an array,
otherwise the first candidate that is a non-empty string. -/
def findReplayUrl (m : JValue) : Option String :=
  match m with
  | JValue.obj _ => firstUrl (candidateList m)
  | JValue.arr _ => firstUrl (candidateList m)
  | _ => none

/-! ## Orchestrator failure handling (the `catch` of `processPending`) -/

/-- The process-local retry-cooldown map `retryAfterByMatchId`; `Map.set`
overwrites, which first-match association-list lookup mirrors. -/
def CooldownMap := List (Nat × Nat)

/-- `retryAfterByMatchId.get(id)`. -/
def cooldownLookup : CooldownMap → Nat → Option Nat
  | [], _ => none
  | (i, t) :: rest, j => if i = j then some t else cooldownLookup rest j

/-- Rows and cooldown map together, as the `catch` block of `processPending`
touches them. -/
structure CycleState where
  rows : List Row
  cooldowns : CooldownMap

/-- The `catch` block of `processPending`, once a row has been claimed
(`currentRow` is set): if the error message contains
`"Replay download failed: 502"`, record `Date.now() + RETRY_COOLDOWN_MS` for
the job and requeue it to `pending`; otherwise mark it `error`. -/
def handleCycleFailure (now cooldownMs jobId : Nat) (e : JsError) (st : CycleState) :
    CycleState :=
  if strContains e.message "Replay download failed: 502" then
    { rows := markPending st.rows jobId,
      cooldowns := (jobId, now + cooldownMs) :: st.cooldowns }
  else
    { rows := markError st.rows jobId, cooldowns := st.cooldowns }

/-! ## Notification dispatcher (`canMessageUser`, `sendPendingMessages`) -/

/-- `SteamUser.EFriendRelationship.None`. -/
def relNone : Nat := 0

/-- `SteamUser.EFriendRelationship.Blocked`. -/
def relBlocked : Nat := 1

/-- `SteamUser.EFriendRelationship.Friend`. -/
def relFriend : Nat := 3

/-- `SteamUser.EFriendRelationship.Ignored`. -/
def relIgnored : Nat := 5

/-- `client.myFriends?.[steamId] ?? client.friends?.[steamId]`. -/
def lookupRel (myFriends friends : String → Option Nat) (steamId : String) : Option Nat :=
  match myFriends steamId with
  | some v => some v
  | none => friends steamId

/-- `canMessageUser`: a falsy steam id, an absent relationship, or a
relationship equal to `None` (0, falsy), `Blocked` or `Ignored` all yield
`false`. -/
def canMessageUser (myFriends friends : String → Option Nat) (steamId : String) : Bool :=
  if steamId = "" then false
  else
    match lookupRel myFriends friends steamId with
    | none => false
    | some rel =>
      decide (rel ≠ 0) && decide (rel ≠ relNone) && decide (rel ≠ relBlocked) &&
        decide (rel ≠ relIgnored)

/-- A row of `fetchPendingTips`: a completed-analysis job with an unsent,
non-null coach tip. -/
structure TipRow where
  id : Nat
  user_steam_id : String
  coach_tip : String
deriving DecidableEq

/-- Observable actions of the notification loop: a `sendFriendMessage` call,
or a `markTipSent` store update. -/
inductive MsgEvent where
  | sendMsg (steamId : String) (text : String)
  | marked (id : Nat)
deriving DecidableEq

/-- The `for` loop of `sendPendingMessages`: skip rows whose recipient cannot
be messaged; otherwise attempt the send (`sendOk` tells whether
`sendFriendMessage` throws for that recipient) and, only when the send did not
throw, perform the `markTipSent` update; a thrown send is caught and the loop
continues. -/
def sendPendingMessages (myFriends friends : String → Option Nat)
    (sendOk : String → Bool) : List TipRow → List MsgEvent
  | [] => []
  | row :: rest =>
    if canMessageUser myFriends friends row.user_steam_id then
      if sendOk row.user_steam_id then
        MsgEvent.sendMsg row.user_steam_id row.coach_tip :: MsgEvent.marked row.id ::
          sendPendingMessages myFriends friends sendOk rest
      else
        MsgEvent.sendMsg row.user_steam_id row.coach_tip ::
          sendPendingMessages myFriends friends sendOk rest
    else sendPendingMessages myFriends friends sendOk rest

/-! ## Concrete states and scripts used by the theorems -/

/-- Two pending jobs of user 7, ids 10 and 12. -/
def twoPendingState : List Row :=
  [⟨10, 7, "codeA", Status.pending, none⟩, ⟨12, 7, "codeB", Status.pending, none⟩]

/-- `twoPendingState` after the newer job was claimed and then marked
`downloaded` — the newer job has left `pending`. -/
def newerDownloadedState : List Row :=
  markDownloaded (getPendingMatch twoPendingState).2 12 "downloads/match_12.dem"

/-- User 7 with pending job 10 and a newer job 12 already in `error`: the
spec's "highest-id pending job" of user 7 is job 10. -/
def pendingBehindErrorState : List Row :=
  [⟨10, 7, "codeA", Status.pending, none⟩, ⟨12, 7, "codeB", Status.error, none⟩]

/-- User 7's job 12 is `processing` when a newer job 15 is inserted
externally. -/
def insertedWhileProcessingState : List Row :=
  insertJob [⟨12, 7, "codeB", Status.processing, none⟩] 15 7 "codeC"

/-- A state satisfying the processing-max invariant: user 7 has two pending
jobs and user 8 has one processing job. -/
def invariantDemoState : List Row :=
  [⟨10, 7, "codeA", Status.pending, none⟩, ⟨12, 7, "codeB", Status.pending, none⟩,
   ⟨5, 8, "codeD", Status.processing, none⟩]

/-- Pending jobs 10 and 12 of user 7 together with pending job 20 of user 9:
the globally-highest eligible row wins. -/
def threeUserState : List Row :=
  [⟨10, 7, "codeA", Status.pending, none⟩, ⟨12, 7, "codeB", Status.pending, none⟩,
   ⟨20, 9, "codeE", Status.pending, none⟩]

/-- HTTP 502 (no body) on attempts 1 to 3, then a successful response with a
body on attempt 4. -/
def script502Thrice : Nat → FetchAttempt := fun a =>
  if a ≤ 3 then FetchAttempt.resp 502 false none else FetchAttempt.resp 200 true none

/-- HTTP 502 on every attempt. -/
def script502Always : Nat → FetchAttempt := fun _ =>
  FetchAttempt.resp 502 false none

/-- A successful (200) response whose body is absent, on every attempt. -/
def scriptEmpty200 : Nat → FetchAttempt := fun _ =>
  FetchAttempt.resp 200 false none

/-- The error `downloadReplay` throws after six 502 responses. -/
def err502 : JsError := ⟨"Error", "Replay download failed: 502", none⟩

/-- A coordinator response carrying both a direct `match.replay_url` field and
all three ingredients of the derived URL. -/
def directAndDerivedResp : JValue :=
  JValue.obj
    [ ("match", JValue.obj [("replay_url", JValue.str "http://direct.example/d.dem.bz2")]),
      ("watchablematchinfo",
        JValue.obj [("server_ip", JValue.num 123), ("tv_port", JValue.num 777)]),
      ("round_stats_all", JValue.arr [JValue.obj [("reservationid", JValue.num 42)]]) ]

/-- A coordinator response whose only URL is derivable: `watchablematchinfo`
plus a last-round `reservationid` of 22 decimal digits. -/
def longReservationResp : JValue :=
  JValue.obj
    [ ("watchablematchinfo",
        JValue.obj [("server_ip", JValue.num 1), ("tv_port", JValue.num 2)]),
      ("round_stats_all",
        JValue.arr [JValue.obj [("reservationid", JValue.str "1234567890123456789012")]]) ]

/-- Relationship map: one blocked recipient, everyone else a friend. -/
def demoMyFriends : String → Option Nat := fun s =>
  if s = "blockedUser" then some relBlocked else some relFriend

/-- The secondary `client.friends` map, empty. -/
def demoFriends : String → Option Nat := fun _ => none

/-- A feedback batch containing a blocked recipient followed by a friend. -/
def demoTipRows : List TipRow :=
  [⟨1, "blockedUser", "tip one"⟩, ⟨2, "friendUser", "tip two"⟩]

/-- The guard of `findReplayUrl`: the response is truthy and of
`typeof "object"` (an object or an array). -/
def isObjectLike : JValue → Bool
  | JValue.obj _ => true
  | JValue.arr _ => true
  | _ => false

/-- A cycle state holding the claimed processing job 1 of user 7 and an empty
cooldown map. -/
def demoCycleState : CycleState :=
  { rows := [⟨1, 7, "codeA", Status.processing, none⟩], cooldowns := [] }

/-! ## Job store lemmas -/

theorem pickMax_mem {l : List Row} {r : Row} (h : pickMax l = some r) : r ∈ l := by
  induction l with
  | nil => simp [pickMax] at h
  | cons a t ih =>
    simp only [pickMax] at h
    cases hp : pickMax t with
    | none => rw [hp] at h; simp at h; simp [h]
    | some b =>
      rw [hp] at h
      simp only [Option.some.injEq] at h
      by_cases hlt : b.id < a.id
      · simp [hlt] at h; simp [h]
      · simp [hlt] at h
        exact List.mem_cons_of_mem a (ih (h ▸ hp))

theorem pickMax_eq_none {l : List Row} : pickMax l = none ↔ l = [] := by
  cases l with
  | nil => simp [pickMax]
  | cons a t =>
    simp only [pickMax]
    cases pickMax t <;> simp

theorem eligible_iff {s : List Row} {r : Row} :
    eligible s r = true ↔ r.status = Status.pending ∧ r.id = userMaxId s r.user_id := by
  simp [eligible]

theorem mem_id_le_userMaxId {s : List Row} {r : Row} (h : r ∈ s) :
    r.id ≤ userMaxId s r.user_id := by
  induction s with
  | nil => simp at h
  | cons a t ih =>
    rcases List.mem_cons.mp h with rfl | hm
    · simp [userMaxId]
    · simp only [userMaxId]
      by_cases hu : a.user_id = r.user_id
      · simp only [hu, if_pos rfl]
        exact le_trans (ih hm) (le_max_right _ _)
      · simp only [if_neg hu]
        exact ih hm

theorem eq_of_mem_idsNodup {s : List Row} {r r2 : Row} (hn : idsNodup s)
    (h1 : r ∈ s) (h2 : r2 ∈ s) (hid : r.id = r2.id) : r = r2 := by
  induction s with
  | nil => simp at h1
  | cons a t ih =>
    rw [idsNodup, List.map_cons, List.nodup_cons] at hn
    rcases List.mem_cons.mp h1 with rfl | hm1 <;> rcases List.mem_cons.mp h2 with rfl | hm2
    · rfl
    · exact absurd (hid ▸ List.mem_map_of_mem Row.id hm2) hn.1
    · exact absurd (hid ▸ List.mem_map_of_mem Row.id hm1) hn.1
    · exact ih hn.2 hm1 hm2

theorem mem_updateRow {s : List Row} {i : Nat} {f : Row → Row} {r2 : Row}
    (h : r2 ∈ updateRow s i f) :
    ∃ r, r ∈ s ∧ (r2 = r ∨ (r.id = i ∧ r2 = f r)) := by
  rcases List.mem_map.mp h with ⟨r, hr, heq⟩
  by_cases hid : r.id = i
  · exact ⟨r, hr, Or.inr ⟨hid, by simp [hid] at heq; exact heq.symm⟩⟩
  · exact ⟨r, hr, Or.inl (by simp [hid] at heq; exact heq.symm)⟩

theorem updateRow_map_id {s : List Row} {i : Nat} {f : Row → Row}
    (hf : ∀ r, (f r).id = r.id) :
    (updateRow s i f).map Row.id = s.map Row.id := by
  induction s with
  | nil => rfl
  | cons a t ih =>
    simp only [updateRow, List.map_cons] at *
    by_cases hid : a.id = i
    · simp only [if_pos hid, hf a, ih]
    · simp only [if_neg hid, ih]

theorem userMaxId_updateRow (s : List Row) (i : Nat) (f : Row → Row) (u : Nat)
    (hfid : ∀ r, (f r).id = r.id) (hfu : ∀ r, (f r).user_id = r.user_id) :
    userMaxId (updateRow s i f) u = userMaxId s u := by
  induction s with
  | nil => rfl
  | cons a t ih =>
    simp only [updateRow, List.map_cons, userMaxId] at *
    by_cases hid : a.id = i
    · simp only [if_pos hid, hfid a, hfu a, ih]
    · simp only [if_neg hid, ih]

theorem getPendingMatch_some {s : List Row} {c : Claimed} {s2 : List Row}
    (h : getPendingMatch s = (some c, s2)) :
    ∃ w, w ∈ s ∧ w.status = Status.pending ∧ w.id = userMaxId s w.user_id ∧
      c = ⟨w.id, w.user_id, w.share_code⟩ ∧ s2 = setStatus s w.id Status.processing := by
  unfold getPendingMatch at h
  cases hp : pickMax (s.filter (fun r => eligible s r)) with
  | none => rw [hp] at h; simp at h
  | some w =>
    rw [hp] at h
    simp only [Prod.mk.injEq, Option.some.injEq] at h
    have hw := pickMax_mem hp
    have hmem := List.mem_filter.mp hw
    have he := eligible_iff.mp hmem.2
    exact ⟨w, hmem.1, he.1, he.2, h.1.symm, h.2.symm⟩

theorem getPendingMatch_none_iff {s : List Row} :
    (getPendingMatch s).1 = none ↔
      ∀ r ∈ s, ¬(r.status = Status.pending ∧ r.id = userMaxId s r.user_id) := by
  unfold getPendingMatch
  cases hp : pickMax (s.filter (fun r => eligible s r)) with
  | none =>
    simp only [true_iff]
    intro r hr hcontra
    have : r ∈ s.filter (fun r => eligible s r) :=
      List.mem_filter.mpr ⟨hr, eligible_iff.mpr hcontra⟩
    rw [pickMax_eq_none.mp hp] at this
    simp at this
  | some w =>
    have hw := pickMax_mem hp
    have hmem := List.mem_filter.mp hw
    have he := eligible_iff.mp hmem.2
    constructor
    · intro h; simp at h
    · intro hall; exact absurd ⟨he.1, he.2⟩ (hall w hmem.1)

theorem atMostOne_of_inv {s : List Row} (hn : idsNodup s) (hinv : procMaxInv s) :
    atMostOneProc s := by
  intro r hr r2 hr2 hp hp2 hu
  exact eq_of_mem_idsNodup hn hr hr2 (by rw [hinv r hr hp, hinv r2 hr2 hp2, hu])

theorem idsNodup_updateRow {s : List Row} {i : Nat} {f : Row → Row}
    (hf : ∀ r, (f r).id = r.id) (hn : idsNodup s) : idsNodup (updateRow s i f) := by
  rw [idsNodup, updateRow_map_id hf]
  exact hn

theorem procMaxInv_setStatus_processing {s : List Row} {w : Row} (hn : idsNodup s)
    (hinv : procMaxInv s) (hw : w ∈ s) (hmax : w.id = userMaxId s w.user_id) :
    procMaxInv (setStatus s w.id Status.processing) := by
  intro r2 hr2 hp2
  rw [setStatus] at hr2
  rw [setStatus, userMaxId_updateRow s w.id
    (fun r => { r with status := Status.processing }) r2.user_id
    (fun _ => rfl) (fun _ => rfl)]
  rcases mem_updateRow hr2 with ⟨r, hr, hcase⟩
  rcases hcase with heq | ⟨hid, heq⟩
  · rw [heq] at hp2 ⊢; exact hinv r hr hp2
  · have hrw : r = w := eq_of_mem_idsNodup hn hr hw hid
    subst heq; subst hrw
    simpa using hmax

theorem procMaxInv_setStatus_other {s : List Row} {i : Nat} {st : Status}
    (hinv : procMaxInv s) (hst : st ≠ Status.processing) :
    procMaxInv (setStatus s i st) := by
  intro r2 hr2 hp2
  rw [setStatus] at hr2
  rw [setStatus, userMaxId_updateRow s i (fun r => { r with status := st }) r2.user_id
    (fun _ => rfl) (fun _ => rfl)]
  rcases mem_updateRow hr2 with ⟨r, hr, hcase⟩
  rcases hcase with heq | ⟨_, heq⟩
  · rw [heq] at hp2 ⊢; exact hinv r hr hp2
  · rw [heq] at hp2; exact absurd hp2 (by simpa using hst)

theorem claim_snd_cases (s : List Row) :
    (getPendingMatch s).2 = s ∨
    ∃ w, w ∈ s ∧ w.status = Status.pending ∧ w.id = userMaxId s w.user_id ∧
      (getPendingMatch s).2 = setStatus s w.id Status.processing := by
  unfold getPendingMatch
  cases hp : pickMax (s.filter (fun r => eligible s r)) with
  | none => left; rfl
  | some w =>
    right
    have hmem := List.mem_filter.mp (pickMax_mem hp)
    have he := eligible_iff.mp hmem.2
    exact ⟨w, hmem.1, he.1, he.2, rfl⟩

/-! ## Claim C1 -/

/-- Claim C1, counterexample.  Starting from two pending jobs 10 and 12 of
user 7, job 12 is claimed and then marked `downloaded` — so the newer job has
left `pending` — yet `getPendingMatch` returns `none`: the older pending job
10 is NOT eligible again, because the source's eligibility subquery takes the
maximum id over ALL of the user's jobs, not only the pending ones. -/
theorem c1_olderJobDropped_counterexample :
    statusOf newerDownloadedState 10 = some Status.pending ∧
    statusOf newerDownloadedState 12 = some Status.downloaded ∧
    (getPendingMatch newerDownloadedState).1 = none :=
  ⟨rfl, rfl, rfl⟩

/-- Claim C1, amended: a pending job that is not its user's highest-id job
OVERALL stays unclaimable as long as any higher-id job of the same user exists
in the store, whatever status that job has; `getPendingMatch` never returns
it. -/
theorem c1_olderPendingJobStaysParked (s : List Row) (r r2 : Row)
    (hn : idsNodup s) (h1 : r ∈ s) (h2 : r2 ∈ s)
    (hu : r.user_id = r2.user_id) (hlt : r.id < r2.id)
    (c : Claimed) (s2 : List Row) (hc : getPendingMatch s = (some c, s2)) :
    c.id ≠ r.id := by
  rcases getPendingMatch_some hc with ⟨w, hw, _, hmax, hceq, _⟩
  intro hid
  have hwid : w.id = r.id := by rw [hceq] at hid; exact hid
  have hwr : w = r := eq_of_mem_idsNodup hn hw h1 hwid
  have hle : r2.id ≤ userMaxId s r.user_id := hu ▸ mem_id_le_userMaxId h2
  rw [hwr] at hmax
  omega

/-- Witness for `c1_olderPendingJobStaysParked`: with pending jobs 10 and 12
of user 7 and pending job 20 of user 9, the claim operation returns job 20,
whose id differs from 10. -/
theorem c1_olderPendingJobStaysParked_witness :
    (getPendingMatch threeUserState).1 = some ⟨20, 9, "codeE"⟩ ∧
    (Claimed.mk 20 9 "codeE").id ≠ 10 :=
  ⟨rfl,
    c1_olderPendingJobStaysParked threeUserState
      ⟨10, 7, "codeA", Status.pending, none⟩ ⟨12, 7, "codeB", Status.pending, none⟩
      (by decide) (by decide) (by decide) (by decide) (by decide)
      ⟨20, 9, "codeE"⟩ (getPendingMatch threeUserState).2 rfl⟩

/-! ## Claim C2 -/

/-- Claim C2, counterexample.  User 7's job 12 is `processing` when job 15 is
inserted externally as `pending`; job 15 is then the user's highest-id job, so
`getPendingMatch` claims it and user 7 ends up with TWO `processing` jobs. -/
theorem c2_twoProcessing_counterexample :
    countProcessing insertedWhileProcessingState 7 = 1 ∧
    (getPendingMatch insertedWhileProcessingState).1 = some ⟨15, 7, "codeC"⟩ ∧
    countProcessing (getPendingMatch insertedWhileProcessingState).2 7 = 2 :=
  ⟨rfl, rfl, rfl⟩

/-- Claim C2, amended: in states where every `processing` job carries its
user's maximum id — which holds in all states produced by the claim/transition
operations alone, but is broken by an external insert of a newer job while an
older one is `processing` — each user has at most one `processing` job, and
both the claim operation and every non-`processing` status transition preserve
the invariant (so `getPendingMatch` alone never produces a second `processing`
job for a user). -/
theorem c2_processingUniquePerUser (s : List Row) (hn : idsNodup s)
    (hinv : procMaxInv s) :
    atMostOneProc s ∧
    procMaxInv (getPendingMatch s).2 ∧ idsNodup (getPendingMatch s).2 ∧
    atMostOneProc (getPendingMatch s).2 ∧
    ∀ i st, st ≠ Status.processing →
      procMaxInv (setStatus s i st) ∧ idsNodup (setStatus s i st) := by
  have hsnd : procMaxInv (getPendingMatch s).2 ∧ idsNodup (getPendingMatch s).2 := by
    rcases claim_snd_cases s with heq | ⟨w, hw, _, hmax, heq⟩
    · rw [heq]; exact ⟨hinv, hn⟩
    · rw [heq]
      exact ⟨procMaxInv_setStatus_processing hn hinv hw hmax,
        idsNodup_updateRow (fun _ => rfl) hn⟩
  refine ⟨atMostOne_of_inv hn hinv, hsnd.1, hsnd.2, atMostOne_of_inv hsnd.2 hsnd.1, ?_⟩
  intro i st hst
  exact ⟨procMaxInv_setStatus_other hinv hst, idsNodup_updateRow (fun _ => rfl) hn⟩

/-- Witness for `c2_processingUniquePerUser` at a state with pending jobs 10
and 12 of user 7 and a processing job 5 of user 8. -/
theorem c2_processingUniquePerUser_witness :
    atMostOneProc invariantDemoState ∧
    procMaxInv (getPendingMatch invariantDemoState).2 ∧
    atMostOneProc (getPendingMatch invariantDemoState).2 :=
  ⟨(c2_processingUniquePerUser invariantDemoState (by decide) (by decide)).1,
    (c2_processingUniquePerUser invariantDemoState (by decide) (by decide)).2.1,
    (c2_processingUniquePerUser invariantDemoState (by decide) (by decide)).2.2.2.1⟩

/-! ## Claim C3 -/

/-- Claim C3, counterexample.  User 7 has pending job 10 and a newer job 12 in
status `error`: the user's highest-id PENDING job (10, per
`userMaxPendingId`, the spec's candidate notion) exists, yet `getPendingMatch`
returns `none` — the source restricts eligibility to pending rows whose id is
the user's maximum over ALL rows. -/
theorem c3_claimNext_counterexample :
    (⟨10, 7, "codeA", Status.pending, none⟩ : Row) ∈ pendingBehindErrorState ∧
    userMaxPendingId pendingBehindErrorState 7 = 10 ∧
    (getPendingMatch pendingBehindErrorState).1 = none := by
  decide

/-- Claim C3, amended: `getPendingMatch` selects one winning row among the
rows that are `pending` AND carry their user's maximum id over all that
user's jobs, transitions exactly that row to `processing`, and returns `none`
precisely when no such row exists; for a user whose only jobs are two pending
jobs 10 and 12 it selects 12 and leaves 10 `pending`. -/
theorem c3_claimNext_selects_maxRow (s : List Row) :
    (∀ c s2, getPendingMatch s = (some c, s2) →
      ∃ w, w ∈ s ∧ w.status = Status.pending ∧ w.id = userMaxId s w.user_id ∧
        c = ⟨w.id, w.user_id, w.share_code⟩ ∧ s2 = setStatus s w.id Status.processing) ∧
    ((getPendingMatch s).1 = none ↔
      ∀ r ∈ s, ¬(r.status = Status.pending ∧ r.id = userMaxId s r.user_id)) ∧
    getPendingMatch twoPendingState =
      (some ⟨12, 7, "codeB"⟩,
        [⟨10, 7, "codeA", Status.pending, none⟩,
         ⟨12, 7, "codeB", Status.processing, none⟩]) :=
  ⟨fun _ _ h => getPendingMatch_some h, getPendingMatch_none_iff, rfl⟩

/-- Witness for `c3_claimNext_selects_maxRow`, applied to the two-pending-jobs
state. -/
theorem c3_claimNext_selects_maxRow_witness :
    ∃ w, w ∈ twoPendingState ∧ w.status = Status.pending ∧
      w.id = userMaxId twoPendingState w.user_id ∧
      (⟨12, 7, "codeB"⟩ : Claimed) = ⟨w.id, w.user_id, w.share_code⟩ ∧
      [⟨10, 7, "codeA", Status.pending, none⟩,
       ⟨12, 7, "codeB", Status.processing, none⟩] =
        setStatus twoPendingState w.id Status.processing :=
  (c3_claimNext_selects_maxRow twoPendingState).1 ⟨12, 7, "codeB"⟩
    [⟨10, 7, "codeA", Status.pending, none⟩,
     ⟨12, 7, "codeB", Status.processing, none⟩] rfl

/-! ## Claim C5 -/

/-- Claim C5: one step of `downloadReplay` retries exactly when the attempt's
failure is retryable in the spec's sense (`claimRetryable`: a fetch/pipeline
error passing `isRetryableFetchError`, or an HTTP status in 502/503/504),
sleeping `3000 * attempt` milliseconds before the retry, and otherwise settles
immediately with the attempt's own outcome; the final attempt (no fuel left,
attempt 6 of the 6-attempt budget) always settles immediately; and a download
hit by HTTP 502 on attempts 1–3 that succeeds on attempt 4 completes with
exactly the waits 3000, 6000 and 9000 ms. -/
theorem c5_downloadRetryPolicy :
    (∀ script : Nat → FetchAttempt, ∀ attempt fuel : Nat, fuel ≠ 0 →
      downloadGo script attempt (fuel + 1) =
        if claimRetryable (script attempt) then
          { result := (downloadGo script (attempt + 1) fuel).result,
            sleeps := 3000 * attempt :: (downloadGo script (attempt + 1) fuel).sleeps,
            wroteFile := attemptWrote (script attempt) ||
              (downloadGo script (attempt + 1) fuel).wroteFile }
        else
          match attemptOutcome (script attempt) with
          | none => { result := Except.ok (), sleeps := [], wroteFile := true }
          | some e =>
            { result := Except.error e, sleeps := [],
              wroteFile := attemptWrote (script attempt) }) ∧
    (∀ script : Nat → FetchAttempt, ∀ attempt : Nat,
      downloadGo script attempt 1 =
        match attemptOutcome (script attempt) with
        | none => { result := Except.ok (), sleeps := [], wroteFile := true }
        | some e =>
          { result := Except.error e, sleeps := [],
            wroteFile := attemptWrote (script attempt) }) ∧
    downloadReplay script502Thrice =
      { result := Except.ok (), sleeps := [3000, 6000, 9000], wroteFile := true } := by
  refine ⟨?_, ?_, rfl⟩
  · intro script attempt fuel hf
    have hfuel : 0 < fuel := Nat.pos_of_ne_zero hf
    cases hsc : script attempt with
    | throws e =>
      by_cases hre : isRetryableFetchError e
      · simp [downloadGo, hsc, claimRetryable, attemptOutcome, attemptWrote, hre, hfuel]
      · simp [downloadGo, hsc, claimRetryable, attemptOutcome, attemptWrote, hre]
    | resp status hasBody pipeErr =>
      by_cases hok : (respOk status && hasBody) = true
      · cases pipeErr with
        | none =>
          simp [downloadGo, hsc, claimRetryable, attemptOutcome, attemptWrote, hok]
        | some e =>
          by_cases hre : isRetryableFetchError e
          · simp [downloadGo, hsc, claimRetryable, attemptOutcome, attemptWrote, hok,
              hre, hfuel]
          · simp [downloadGo, hsc, claimRetryable, attemptOutcome, attemptWrote, hok, hre]
      · by_cases hrs : retryableStatus status = true
        · simp [downloadGo, hsc, claimRetryable, attemptOutcome, attemptWrote, hok,
            hrs, hfuel]
        · simp [downloadGo, hsc, claimRetryable, attemptOutcome, attemptWrote, hok, hrs]
  · intro script attempt
    cases hsc : script attempt with
    | throws e =>
      simp [downloadGo, hsc, attemptOutcome, attemptWrote]
    | resp status hasBody pipeErr =>
      by_cases hok : (respOk status && hasBody) = true
      · cases pipeErr with
        | none => simp [downloadGo, hsc, attemptOutcome, attemptWrote, hok]
        | some e => simp [downloadGo, hsc, attemptOutcome, attemptWrote, hok]
      · simp [downloadGo, hsc, attemptOutcome, attemptWrote, hok]

/-- Witness for `c5_downloadRetryPolicy`: the first-attempt 502 of the
three-502s-then-success script takes the retry branch. -/
theorem c5_downloadRetryPolicy_witness :
    downloadGo script502Thrice 1 (5 + 1) =
      (if claimRetryable (script502Thrice 1) then
        { result := (downloadGo script502Thrice (1 + 1) 5).result,
          sleeps := 3000 * 1 :: (downloadGo script502Thrice (1 + 1) 5).sleeps,
          wroteFile := attemptWrote (script502Thrice 1) ||
            (downloadGo script502Thrice (1 + 1) 5).wroteFile }
      else
        match attemptOutcome (script502Thrice 1) with
        | none => { result := Except.ok (), sleeps := [], wroteFile := true }
        | some e =>
          { result := Except.error e, sleeps := [],
            wroteFile := attemptWrote (script502Thrice 1) }) :=
  c5_downloadRetryPolicy.1 script502Thrice 1 5 (by decide)

/-! ## Claim C4 -/

/-- Claim C4: six 502 responses exhaust the attempt budget and surface as the
error `"Replay download failed: 502"`; the orchestrator's catch then records
the cooldown deadline `now + RETRY_COOLDOWN_MS` (strictly in the future for
any positive cooldown, 300000 ms by default) for the job and requeues it to
`pending`; any other failure of the cycle after a claim is marked `error`. -/
theorem c4_repeated502_requeues (now cooldownMs jobId : Nat) (st : CycleState)
    (hcd : 0 < cooldownMs) :
    (downloadReplay script502Always).result = Except.error err502 ∧
    strContains err502.message "Replay download failed: 502" = true ∧
    handleCycleFailure now cooldownMs jobId err502 st =
      { rows := markPending st.rows jobId,
        cooldowns := (jobId, now + cooldownMs) :: st.cooldowns } ∧
    cooldownLookup (handleCycleFailure now cooldownMs jobId err502 st).cooldowns jobId =
      some (now + cooldownMs) ∧
    now < now + cooldownMs ∧
    (∀ e : JsError, strContains e.message "Replay download failed: 502" = false →
      handleCycleFailure now cooldownMs jobId e st =
        { rows := markError st.rows jobId, cooldowns := st.cooldowns }) := by
  refine ⟨rfl, rfl, rfl, by simp [handleCycleFailure, cooldownLookup], by omega, ?_⟩
  intro e he
  simp [handleCycleFailure, he]

/-- Witness for `c4_repeated502_requeues` at the default cooldown of
300000 ms. -/
theorem c4_repeated502_requeues_witness :
    handleCycleFailure 0 300000 1 err502 demoCycleState =
      { rows := markPending demoCycleState.rows 1,
        cooldowns := (1, 0 + 300000) :: demoCycleState.cooldowns } ∧
    (0 : Nat) < 0 + 300000 :=
  ⟨(c4_repeated502_requeues 0 300000 1 demoCycleState (by decide)).2.2.1,
    (c4_repeated502_requeues 0 300000 1 demoCycleState (by decide)).2.2.2.2.1⟩

/-! ## Claim C10 -/

/-- Claim C10: a first attempt answered by a 2xx response with an absent body
fails the whole download immediately and permanently — no retry, no backoff
sleep, no write to the destination file — with the error
`"Replay download failed: <status>"` encoding the successful status. -/
theorem c10_emptyBody2xxFailsImmediately (script : Nat → FetchAttempt) (status : Nat)
    (h2 : 200 ≤ status) (h3 : status < 300)
    (hfirst : script 1 = FetchAttempt.resp status false none) :
    downloadReplay script =
      { result :=
          Except.error ⟨"Error", "Replay download failed: " ++ toString status, none⟩,
        sleeps := [], wroteFile := false } := by
  have hrs : retryableStatus status = false := by
    simp only [retryableStatus]
    simp only [Bool.or_eq_false_iff, decide_eq_false_iff_not]
    omega
  show downloadGo script 1 (5 + 1) = _
  simp [downloadGo, hfirst, hrs]

/-- Witness for `c10_emptyBody2xxFailsImmediately`: a bodyless 200 response. -/
theorem c10_emptyBody2xxFailsImmediately_witness :
    downloadReplay scriptEmpty200 =
      { result := Except.error ⟨"Error", "Replay download failed: " ++ toString 200, none⟩,
        sleeps := [], wroteFile := false } :=
  c10_emptyBody2xxFailsImmediately scriptEmpty200 200 (by decide) (by decide) rfl

/-! ## Claim C6 -/

/-- Claim C6, counterexample.  When no `matchList` event arrives within the
20-second window, `requestMatch` does reject with the timeout error, but the
`once` listener is NOT detached: the timeout callback in the source only calls
`reject` and never `removeListener`. -/
theorem c6_timeoutListener_counterexample :
    (requestMatch GcScenario.noResponse).failed = some timedOutError ∧
    (requestMatch GcScenario.noResponse).listenerDetached = false :=
  ⟨rfl, rfl⟩

/-- Claim C6, amended: a resolve call with no matching response within the
20000 ms window fails with the timeout error and the orchestrator's catch
marks the claimed job `error` (the timeout message does not contain
`"Replay download failed: 502"`); the pending listener, however, stays
attached on timeout — it is detached only when the response arrives in time
(`once` semantics) or when the send itself throws. -/
theorem c6_timeoutTerminal (now cooldownMs jobId : Nat) (st : CycleState) :
    requestMatchTimeoutMs = 20000 ∧
    (requestMatch GcScenario.noResponse).failed = some timedOutError ∧
    (∀ t, requestMatchTimeoutMs ≤ t →
      requestMatch (GcScenario.response t) =
        { failed := some timedOutError, listenerDetached := false }) ∧
    (∀ t, t < requestMatchTimeoutMs →
      requestMatch (GcScenario.response t) =
        { failed := none, listenerDetached := true }) ∧
    (∀ e, requestMatch (GcScenario.sendThrows e) =
      { failed := some e, listenerDetached := true }) ∧
    (requestMatch GcScenario.noResponse).listenerDetached = false ∧
    handleCycleFailure now cooldownMs jobId timedOutError st =
      { rows := markError st.rows jobId, cooldowns := st.cooldowns } := by
  refine ⟨rfl, rfl, ?_, ?_, fun _ => rfl, rfl, rfl⟩
  · intro t ht
    simp only [requestMatch, if_neg (by omega : ¬ t < requestMatchTimeoutMs)]
  · intro t ht
    simp only [requestMatch, if_pos ht]

/-- Witness for `c6_timeoutTerminal`: an event arriving exactly at the
20000 ms deadline is a timeout. -/
theorem c6_timeoutTerminal_witness :
    requestMatch (GcScenario.response 20000) =
      { failed := some timedOutError, listenerDetached := false } :=
  (c6_timeoutTerminal 0 300000 1 demoCycleState).2.2.1 20000 (by decide)

/-! ## Adequacy of the fuel bound of the breadth-first search -/

theorem jsize_pos (v : JValue) : 0 < jsize v := by
  cases v <;> simp [jsize]

theorem qsize_append (a b : List (JValue × Nat)) :
    qsize (a ++ b) = qsize a + qsize b := by
  induction a with
  | nil => simp [qsize]
  | cons x t ih =>
    cases x with
    | mk n d =>
      show jsize n + qsize (t ++ b) = jsize n + qsize t + qsize b
      rw [ih]
      omega

theorem qsize_map_items (xs : List JValue) (d : Nat) :
    qsize (xs.map (fun x => (x, d))) = jsizeList xs := by
  induction xs with
  | nil => rfl
  | cons v t ih => simp [qsize, jsizeList, ih]

theorem qsize_map_fields (fs : List (String × JValue)) (d : Nat) :
    qsize (fs.map (fun p => (p.2, d))) = jsizeFields fs := by
  induction fs with
  | nil => rfl
  | cons p t ih =>
    cases p
    simp [qsize, jsizeFields, ih]

theorem qsize_zero_nil {q : List (JValue × Nat)} (h : qsize q = 0) : q = [] := by
  cases q with
  | nil => rfl
  | cons x t =>
    cases x with
    | mk n d =>
      have := jsize_pos n
      rw [qsize] at h
      omega

/-- Any fuel at least `qsize` of the queue makes `bfsGo` compute the
unbounded worklist loop: the loop's total queue size strictly decreases at
every step, so `findReplayUrlInObject`'s fuel of `qsize [(m, 0)]` is
sufficient and the fuel parameter is invisible. -/
theorem bfsGo_fuel_irrelevant :
    ∀ f1 f2 : Nat, ∀ q : List (JValue × Nat),
      qsize q ≤ f1 → qsize q ≤ f2 → bfsGo f1 q = bfsGo f2 q := by
  intro f1
  induction f1 with
  | zero =>
    intro f2 q h1 _
    have hq : q = [] := qsize_zero_nil (Nat.le_zero.mp h1)
    subst hq
    cases f2 <;> rfl
  | succ f ih =>
    intro f2 q h1 h2
    cases q with
    | nil => cases f2 <;> rfl
    | cons x rest =>
      cases x with
      | mk node depth =>
        have hjp := jsize_pos node
        have hq : qsize ((node, depth) :: rest) = jsize node + qsize rest := rfl
        cases f2 with
        | zero => rw [hq] at h2; omega
        | succ g =>
          simp only [bfsGo]
          by_cases hskip : jTruthy node = false ∨ 6 < depth
          · rw [if_pos hskip, if_pos hskip]
            exact ih g rest (by omega) (by omega)
          · rw [if_neg hskip, if_neg hskip]
            cases node with
            | str s =>
              show (if strContains s ".dem.bz2" = true then some s else bfsGo f rest) =
                (if strContains s ".dem.bz2" = true then some s else bfsGo g rest)
              by_cases hc : strContains s ".dem.bz2" = true
              · rw [if_pos hc, if_pos hc]
              · rw [if_neg hc, if_neg hc]
                exact ih g rest (by simp [jsize] at hq; omega) (by simp [jsize] at hq; omega)
            | num n => exact ih g rest (by simp [jsize] at hq; omega) (by simp [jsize] at hq; omega)
            | nullv => exact ih g rest (by simp [jsize] at hq; omega) (by simp [jsize] at hq; omega)
            | arr xs =>
              have hsz : qsize (rest ++ xs.map (fun x => (x, depth + 1))) =
                  qsize rest + jsizeList xs := by
                rw [qsize_append, qsize_map_items]
              have hjs : jsize (JValue.arr xs) = 1 + jsizeList xs := rfl
              exact ih g (rest ++ xs.map (fun x => (x, depth + 1)))
                (by rw [hsz]; rw [hjs] at hq; omega)
                (by rw [hsz]; rw [hjs] at hq; omega)
            | obj fs =>
              have hsz : qsize (rest ++ fs.map (fun p => (p.2, depth + 1))) =
                  qsize rest + jsizeFields fs := by
                rw [qsize_append, qsize_map_fields]
              have hjs : jsize (JValue.obj fs) = 1 + jsizeFields fs := rfl
              exact ih g (rest ++ fs.map (fun p => (p.2, depth + 1)))
                (by rw [hsz]; rw [hjs] at hq; omega)
                (by rw [hsz]; rw [hjs] at hq; omega)

/-! ## Claim C7 -/

theorem firstUrl_append_left {l : List (Option JValue)} {s : String}
    (h : firstUrl l = some s) (l2 : List (Option JValue)) :
    firstUrl (l ++ l2) = some s := by
  induction l with
  | nil => simp [firstUrl] at h
  | cons a t ih =>
    cases a with
    | none => simpa [firstUrl] using ih (by simpa [firstUrl] using h)
    | some v =>
      cases v with
      | str u =>
        by_cases hz : u.length = 0
        · rw [firstUrl, if_pos hz] at h
          rw [List.cons_append, firstUrl, if_pos hz]
          exact ih h
        · rw [firstUrl, if_neg hz] at h
          rw [List.cons_append, firstUrl, if_neg hz]
          exact h
      | num n => simpa [firstUrl] using ih (by simpa [firstUrl] using h)
      | obj fs => simpa [firstUrl] using ih (by simpa [firstUrl] using h)
      | arr xs => simpa [firstUrl] using ih (by simpa [firstUrl] using h)
      | nullv => simpa [firstUrl] using ih (by simpa [firstUrl] using h)

/-- Claim C7: `findReplayUrl` is a pure function over the response value that
returns the first non-empty-string candidate of the fixed list — the six
direct field paths first, then the derived `buildReplayUrl`, then the bounded
breadth-first search — and `none` for a non-object response; whenever some
direct field path already yields a non-empty string, that value is returned
regardless of the later candidates; in particular, on a response carrying
both a direct `match.replay_url` and a fully derivable URL, the direct field
wins. -/
theorem c7_findReplayUrl_priority :
    (∀ m, isObjectLike m = true →
      findReplayUrl m =
        firstUrl (directCandidates m ++
          [(buildReplayUrl m).map JValue.str, (findReplayUrlInObject m).map JValue.str])) ∧
    (∀ m, isObjectLike m = false → findReplayUrl m = none) ∧
    (∀ m s, isObjectLike m = true → firstUrl (directCandidates m) = some s →
      findReplayUrl m = some s) ∧
    findReplayUrl directAndDerivedResp = some "http://direct.example/d.dem.bz2" ∧
    buildReplayUrl directAndDerivedResp =
      some "http://replay123.valve.net/730/000000000000000000042_777.dem.bz2" := by
  have h1 : ∀ m, isObjectLike m = true →
      findReplayUrl m =
        firstUrl (directCandidates m ++
          [(buildReplayUrl m).map JValue.str, (findReplayUrlInObject m).map JValue.str]) := by
    intro m hm
    cases m <;> simp_all [isObjectLike, findReplayUrl, candidateList]
  refine ⟨h1, ?_, ?_, rfl, rfl⟩
  · intro m hm
    cases m <;> simp_all [isObjectLike, findReplayUrl]
  · intro m s hm hs
    rw [h1 m hm]
    exact firstUrl_append_left hs _

/-- Witness for `c7_findReplayUrl_priority`: the response carrying both a
direct field and a derivable URL resolves to the direct field's value. -/
theorem c7_findReplayUrl_priority_witness :
    findReplayUrl directAndDerivedResp = some "http://direct.example/d.dem.bz2" :=
  c7_findReplayUrl_priority.2.2.1 directAndDerivedResp "http://direct.example/d.dem.bz2"
    rfl rfl

/-! ## Claim C8 -/

/-- Claim C8, counterexample.  A coordinator response whose last round's
`reservationid` has 22 decimal digits produces a padded segment of 22
characters, not 21: `padStart` never truncates, so the "always exactly 21
characters regardless of magnitude" claim fails. -/
theorem c8_padding_counterexample :
    buildReplayUrl longReservationResp =
      some "http://replay1.valve.net/730/1234567890123456789012_2.dem.bz2" ∧
    (paddedReservationSegment (JValue.str "1234567890123456789012")).length = 22 ∧
    (paddedReservationSegment (JValue.str "1234567890123456789012")).length ≠ 21 :=
  ⟨rfl, rfl, by decide⟩

theorem padStart_length (s : String) (n : Nat) (c : Char) :
    (padStart s n c).length = (n - s.length) + s.length := by
  cases s with
  | mk data =>
    show (List.replicate (n - data.length) c ++ data).length =
      (n - data.length) + data.length
    simp

/-- Claim C8, amended: the padded reservation-id segment
`String(reservationId).padStart(21, "0")` has exactly 21 characters whenever
the reservation id's string form has at most 21 characters (in particular for
every 64-bit reservation id); a longer string form passes through unchanged,
so the segment has `max 21 len` characters in general; `42` pads to
`"000000000000000000042"`. -/
theorem c8_paddingLength (s : String) :
    (s.length ≤ 21 → (paddedReservationSegment (JValue.str s)).length = 21) ∧
    (21 ≤ s.length → paddedReservationSegment (JValue.str s) = s) ∧
    (paddedReservationSegment (JValue.str s)).length = max 21 s.length ∧
    paddedReservationSegment (JValue.str "42") = "000000000000000000042" := by
  have hlen : (paddedReservationSegment (JValue.str s)).length =
      (21 - s.length) + s.length := padStart_length s 21 '0'
  refine ⟨?_, ?_, ?_, rfl⟩
  · intro h; omega
  · intro h
    show padStart s 21 '0' = s
    rw [padStart, Nat.sub_eq_zero_of_le h]
    cases s
    rfl
  · omega

/-- Witness for `c8_paddingLength` at the spec's example input `"42"`. -/
theorem c8_paddingLength_witness :
    (paddedReservationSegment (JValue.str "42")).length = 21 :=
  (c8_paddingLength "42").1 (by decide)

/-! ## Claim C9 -/

theorem sendMsg_mem {m1 m2 : String → Option Nat} {sendOk : String → Bool}
    {rows : List TipRow} {sid t : String}
    (h : MsgEvent.sendMsg sid t ∈ sendPendingMessages m1 m2 sendOk rows) :
    canMessageUser m1 m2 sid = true := by
  induction rows with
  | nil => simp [sendPendingMessages] at h
  | cons a rest ih =>
    rw [sendPendingMessages] at h
    by_cases hcm : canMessageUser m1 m2 a.user_steam_id
    · rw [if_pos hcm] at h
      by_cases hso : sendOk a.user_steam_id
      · rw [if_pos hso] at h
        rcases List.mem_cons.mp h with heq | h2
        · cases heq; exact hcm
        · rcases List.mem_cons.mp h2 with heq2 | h3
          · cases heq2
          · exact ih h3
      · rw [if_neg hso] at h
        rcases List.mem_cons.mp h with heq | h2
        · cases heq; exact hcm
        · exact ih h2
    · rw [if_neg hcm] at h
      exact ih h

theorem marked_mem {m1 m2 : String → Option Nat} {sendOk : String → Bool}
    {rows : List TipRow} {i : Nat}
    (h : MsgEvent.marked i ∈ sendPendingMessages m1 m2 sendOk rows) :
    ∃ r2, r2 ∈ rows ∧ r2.id = i ∧ canMessageUser m1 m2 r2.user_steam_id = true ∧
      sendOk r2.user_steam_id = true := by
  induction rows with
  | nil => simp [sendPendingMessages] at h
  | cons a rest ih =>
    rw [sendPendingMessages] at h
    by_cases hcm : canMessageUser m1 m2 a.user_steam_id
    · rw [if_pos hcm] at h
      by_cases hso : sendOk a.user_steam_id
      · rw [if_pos hso] at h
        rcases List.mem_cons.mp h with heq | h2
        · cases heq
        · rcases List.mem_cons.mp h2 with heq2 | h3
          · cases heq2; exact ⟨a, List.mem_cons_self a rest, rfl, hcm, hso⟩
          · rcases ih h3 with ⟨r2, hr2, hrest⟩
            exact ⟨r2, List.mem_cons_of_mem a hr2, hrest⟩
      · rw [if_neg hso] at h
        rcases List.mem_cons.mp h with heq | h2
        · cases heq
        · rcases ih h2 with ⟨r2, hr2, hrest⟩
          exact ⟨r2, List.mem_cons_of_mem a hr2, hrest⟩
    · rw [if_neg hcm] at h
      rcases ih h with ⟨r2, hr2, hrest⟩
      exact ⟨r2, List.mem_cons_of_mem a hr2, hrest⟩

theorem tip_eq_of_nodup {rows : List TipRow} {a b : TipRow}
    (hn : (rows.map TipRow.id).Nodup) (ha : a ∈ rows) (hb : b ∈ rows)
    (hid : a.id = b.id) : a = b := by
  induction rows with
  | nil => simp at ha
  | cons x t ih =>
    rw [List.map_cons, List.nodup_cons] at hn
    rcases List.mem_cons.mp ha with rfl | hm1 <;> rcases List.mem_cons.mp hb with rfl | hm2
    · rfl
    · exact absurd (hid ▸ List.mem_map_of_mem TipRow.id hm2) hn.1
    · exact absurd (hid ▸ List.mem_map_of_mem TipRow.id hm1) hn.1
    · exact ih hn.2 hm1 hm2

theorem canMessage_false_of_bad {m1 m2 : String → Option Nat} {sid : String}
    (h : lookupRel m1 m2 sid = none ∨ lookupRel m1 m2 sid = some relNone ∨
      lookupRel m1 m2 sid = some relBlocked ∨ lookupRel m1 m2 sid = some relIgnored) :
    canMessageUser m1 m2 sid = false := by
  unfold canMessageUser
  by_cases hsid : sid = ""
  · simp [hsid]
  · rw [if_neg hsid]
    rcases h with h | h | h | h <;>
      rw [h] <;> simp [relNone, relBlocked, relIgnored]

/-- Claim C9: for a feedback row whose recipient relationship is blocked,
ignored, `None` or absent, the dispatch is a silent no-op — no
`sendFriendMessage` call is made for that recipient, the row's
`markTipSent` update never happens, and the loop simply continues with the
remaining rows — and in general `markTipSent` runs only for rows whose
recipient passed `canMessageUser` and whose send call did not throw. -/
theorem c9_blockedRecipientSilentNoop (m1 m2 : String → Option Nat)
    (sendOk : String → Bool) (rows : List TipRow) (row : TipRow) (hrow : row ∈ rows)
    (hbad : lookupRel m1 m2 row.user_steam_id = none ∨
      lookupRel m1 m2 row.user_steam_id = some relNone ∨
      lookupRel m1 m2 row.user_steam_id = some relBlocked ∨
      lookupRel m1 m2 row.user_steam_id = some relIgnored) :
    (∀ t, MsgEvent.sendMsg row.user_steam_id t ∉ sendPendingMessages m1 m2 sendOk rows) ∧
    ((rows.map TipRow.id).Nodup →
      MsgEvent.marked row.id ∉ sendPendingMessages m1 m2 sendOk rows) ∧
    (∀ rest, sendPendingMessages m1 m2 sendOk (row :: rest) =
      sendPendingMessages m1 m2 sendOk rest) ∧
    (∀ i, MsgEvent.marked i ∈ sendPendingMessages m1 m2 sendOk rows →
      ∃ r2, r2 ∈ rows ∧ r2.id = i ∧ canMessageUser m1 m2 r2.user_steam_id = true ∧
        sendOk r2.user_steam_id = true) := by
  have hcm := canMessage_false_of_bad hbad
  refine ⟨?_, ?_, ?_, fun _ h => marked_mem h⟩
  · intro t hmem
    rw [sendMsg_mem hmem] at hcm
    cases hcm
  · intro hn hmem
    rcases marked_mem hmem with ⟨r2, hr2, hid, hcm2, _⟩
    have : row = r2 := tip_eq_of_nodup hn hrow hr2 hid.symm
    rw [← this] at hcm2
    rw [hcm2] at hcm
    cases hcm
  · intro rest
    rw [sendPendingMessages, if_neg (by rw [hcm]; exact Bool.false_ne_true)]

/-- Witness for `c9_blockedRecipientSilentNoop`: in a batch holding a blocked
recipient's row 1 and a friend's row 2, only the friend's tip is sent and only
row 2 is marked. -/
theorem c9_blockedRecipientSilentNoop_witness :
    sendPendingMessages demoMyFriends demoFriends (fun _ => true) demoTipRows =
      [MsgEvent.sendMsg "friendUser" "tip two", MsgEvent.marked 2] ∧
    MsgEvent.marked 1 ∉
      sendPendingMessages demoMyFriends demoFriends (fun _ => true) demoTipRows :=
  ⟨rfl,
    (c9_blockedRecipientSilentNoop demoMyFriends demoFriends (fun _ => true) demoTipRows
      ⟨1, "blockedUser", "tip one"⟩ (by decide)
      (Or.inr (Or.inr (Or.inl rfl)))).2.1 (by decide)⟩

end ReplayDownloader
